import Mathlib

/-!
Verification of the `mejora_codigo.py` pipeline (repository MY-IA).

The Python program is a single-threaded orchestration loop:
load `codigo.py`, run the test suite (pytest on `tests.py`), ask a remote
completion service to rewrite the code for a fixed number of iterations,
stage the result to `temp/codigo_mejorado.py`, log a diff and two linter
reports, move the staged file over `codigo.py`, re-run the tests, restore
the original content if they fail, emit a static `nuevas_funciones/resta.py`,
and exit.

This file gives a shallow embedding of that program. External effects
(file reads, subprocess results, the completion API) are supplied by an
`Env` of oracles; `main` maps an `Env` to the observable outcome of one run
(final content of the three file slots, log lines, exit code).
-/

namespace MejoraCodigo

/-- Result of one external subprocess invocation, as captured by
`ejecutar_comando` in `mejora_codigo.py`: exit status plus standard output. -/
structure CommandResult where
  returncode : Int
  stdout : String
deriving DecidableEq

/-- Environment of oracles feeding one run of `main` in `mejora_codigo.py`.

* `load`: content of `codigo.py` at start; `none` models a read failure in
  `cargar_codigo` (which calls `exit(1)`).
* `pytest`: result of running `pytest tests.py` as a function of the content
  of `codigo.py` at the time of the run; `none` models a launch failure of
  `ejecutar_comando` (which returns `None`).
* `api`: result of the `i`-th `openai.Completion.create` call given its
  prompt: `none` models an exception during the call, `some cs` the list of
  candidate texts in `response.choices`.
* `pylint`, `flake8`: results of the two advisory linter commands.
* `tempWriteOk`: whether the write of `temp/codigo_mejorado.py` in
  `crear_archivo` succeeds (a failure there is caught and logged).
* `moveOk`: whether `shutil.move('temp/codigo_mejorado.py', 'codigo.py')`
  succeeds, given that the staged file exists.
* `restoreWriteOk`: whether the restoring write of the original content to
  `codigo.py` in `crear_archivo` succeeds.
* `restaWriteOk`: whether the write of `nuevas_funciones/resta.py` succeeds. -/
structure Env where
  load : Option String
  pytest : String → Option CommandResult
  api : Nat → String → Option (List String)
  pylint : Option CommandResult
  flake8 : Option CommandResult
  tempWriteOk : Bool
  moveOk : Bool
  restoreWriteOk : Bool
  restaWriteOk : Bool

/-- Observable outcome of one run: final content of `codigo.py` (`none` when
the initial load failed and the content is unknown), final content of the
temp staging file and of `nuevas_funciones/resta.py` (`none` = absent),
warning lines logged by the advisory linters, and the process exit code. -/
structure RunResult where
  canonical : Option String
  temp : Option String
  resta : Option String
  log : List String
  exitCode : Nat
deriving DecidableEq

/-- Embedding of `ejecutar_pruebas`: run pytest (here: consult the oracle at
the current content of `codigo.py`) and report `True` exactly when a result
was obtained and its exit status is zero. -/
def ejecutar_pruebas (pytest : String → Option CommandResult) (canonical : String) : Bool :=
  match pytest canonical with
  | some resultado => resultado.returncode == 0
  | none => false

/-- Whitespace stripping at both ends, as Python's `str.strip()` does,
written structurally over the character list. -/
def stripChars (s : List Char) : List Char :=
  ((s.dropWhile Char.isWhitespace).reverse.dropWhile Char.isWhitespace).reverse

/-- Embedding of `str.strip()` on strings. -/
def strip (s : String) : String := String.mk (stripChars s.data)

/-- Prompt built by `mejorar_codigo` around the current code text
(`f"Mejora el siguiente código:\n\n{codigo}\n\n"` in the source). -/
def promptFor (codigo : String) : String :=
  "Mejora el siguiente código:\n\n" ++ codigo ++ "\n\n"

/-- Loop body of `mejorar_codigo`, with the call index `i` made explicit:
on iteration `i` the current code is embedded in the prompt, the first
candidate of the response is stripped of surrounding whitespace and becomes
the current code of the next iteration; a failed call (exception, or an
empty candidate list making `response.choices[0]` raise) returns `None`
for the whole loop. -/
def mejorarAux (api : Nat → String → Option (List String)) :
    Nat → Nat → String → Option String
  | _, 0, codigo => some codigo
  | i, n + 1, codigo =>
    match api i (promptFor codigo) with
    | some (sugerencia :: _) => mejorarAux api (i + 1) n (strip sugerencia)
    | some [] => none
    | none => none

/-- Embedding of `mejorar_codigo(codigo, iteraciones)`. -/
def mejorar_codigo (api : Nat → String → Option (List String))
    (codigo : String) (iteraciones : Nat) : Option String :=
  mejorarAux api 0 iteraciones codigo

/-- One round-trip of the Improvement Engine as the spec describes it:
embed the current code in the prompt, take exactly the first returned
candidate, strip leading and trailing whitespace; fail if the call fails
or returns no candidate. -/
def roundTrip (api : Nat → String → Option (List String))
    (i : Nat) (codigo : String) : Option String :=
  match api i (promptFor codigo) with
  | some (c :: _) => some (strip c)
  | some [] => none
  | none => none

/-- Fold of `n` sequential round-trips starting at call index `i`: the
output of each round becomes the input of the next, and the value after
the last round is returned. -/
def foldRoundTrips (api : Nat → String → Option (List String)) :
    Nat → Nat → String → Option String
  | _, 0, codigo => some codigo
  | i, n + 1, codigo => (roundTrip api i codigo).bind (foldRoundTrips api (i + 1) n)

/-- Embedding of `analizar_codigo`: the pylint result yields a warning log
line exactly when a result was captured and its exit status is nonzero. -/
def analizar_codigo (resultado : Option CommandResult) : List String :=
  match resultado with
  | some r => if r.returncode == 0 then [] else ["Issues found by pylint:\n" ++ r.stdout]
  | none => []

/-- Embedding of `verificar_estilo_codigo`: same shape for flake8. -/
def verificar_estilo_codigo (resultado : Option CommandResult) : List String :=
  match resultado with
  | some r => if r.returncode == 0 then [] else ["Issues found by flake8:\n" ++ r.stdout]
  | none => []

/-- Iteration count fixed in `main` (`iteraciones = 3`). -/
def iteraciones : Nat := 3

/-- Static content written to `nuevas_funciones/resta.py` by `main`
(the triple-quoted `nuevo_codigo` literal). -/
def nuevo_codigo : String := "\ndef resta(a, b):\n    return a - b\n"

/-- Embedding of `main` in `mejora_codigo.py`. Control flow of the source:

1. `cargar_codigo('codigo.py')`, fatal (`exit(1)`) on failure;
2. `ejecutar_pruebas()` on the original, `exit(1)` on failure;
3. `mejorar_codigo(codigo_original, 3)`; a falsy result (`None` or the
   empty string) is `exit(1)`;
4. `guardar_codigo('temp/codigo_mejorado.py', ...)` (write failure caught);
5. diff and the two linters, logging only;
6. `shutil.move('temp/codigo_mejorado.py', 'codigo.py')`, `exit(1)` on
   failure (the staged file missing after a failed write also fails here);
7. `ejecutar_pruebas()` on the improved content: on failure the original
   content is written back via `guardar_codigo` (write failure caught);
8. `guardar_codigo('nuevas_funciones/resta.py', nuevo_codigo)`, then the
   directory listing, then normal return (exit code 0). -/
def main (env : Env) : RunResult :=
  match env.load with
  | none => ⟨none, none, none, [], 1⟩
  | some codigo_original =>
    if ejecutar_pruebas env.pytest codigo_original then
      match mejorar_codigo env.api codigo_original iteraciones with
      | none => ⟨some codigo_original, none, none, [], 1⟩
      | some codigo_mejorado =>
        if codigo_mejorado == "" then
          ⟨some codigo_original, none, none, [], 1⟩
        else
          let temp : Option String :=
            if env.tempWriteOk then some codigo_mejorado else none
          let lintLog : List String :=
            analizar_codigo env.pylint ++ verificar_estilo_codigo env.flake8
          match temp with
          | none => ⟨some codigo_original, none, none, lintLog, 1⟩
          | some staged =>
            if env.moveOk then
              if ejecutar_pruebas env.pytest staged then
                ⟨some staged, none,
                  if env.restaWriteOk then some nuevo_codigo else none, lintLog, 0⟩
              else
                ⟨if env.restoreWriteOk then some codigo_original else some staged,
                  none,
                  if env.restaWriteOk then some nuevo_codigo else none, lintLog, 0⟩
            else
              ⟨some codigo_original, some staged, none, lintLog, 1⟩
    else
      ⟨some codigo_original, none, none, [], 1⟩

/-! ### The Differ

The source delegates diffing to the external `diff_match_patch` library:
`calcular_diferencia` calls `dmp.diff_main(original, mejorado)` followed by
`dmp.diff_cleanupSemantic(diffs)`. The library is not part of this
repository, so its two operations are modelled from the spec below. -/

/-- Operation of one diff entry (`diff_match_patch` uses -1/0/1). -/
inductive DiffOp where
  | equal
  | insert
  | delete
deriving DecidableEq

/-- One element of the diff: an operation and the run of text it covers. -/
structure DiffEntry where
  op : DiffOp
  text : String
deriving DecidableEq

/-- Length of a longest common subsequence of two character lists. -/
def lcsLen : List Char → List Char → Nat
  | [], _ => 0
  | _ :: _, [] => 0
  | x :: xs, y :: ys =>
    if x = y then lcsLen xs ys + 1
    else max (lcsLen xs (y :: ys)) (lcsLen (x :: xs) ys)
termination_by a b => a.length + b.length

/-- Modelled from the spec: the per-character core of
`diff_match_patch.diff_main`, a longest-common-subsequence-style diff.
Characters on a longest common subsequence become `equal` entries; around
them, characters only in the original become `delete` entries and
characters only in the improved text become `insert` entries, in order. -/
def charDiff : List Char → List Char → List (DiffOp × Char)
  | [], [] => []
  | [], y :: ys => (DiffOp.insert, y) :: charDiff [] ys
  | x :: xs, [] => (DiffOp.delete, x) :: charDiff xs []
  | x :: xs, y :: ys =>
    if x = y then (DiffOp.equal, x) :: charDiff xs ys
    else if lcsLen (x :: xs) ys ≤ lcsLen xs (y :: ys) then
      (DiffOp.delete, x) :: charDiff xs (y :: ys)
    else (DiffOp.insert, y) :: charDiff (x :: xs) ys
termination_by a b => a.length + b.length

/-- View single characters as runs of length one. -/
def toRuns (l : List (DiffOp × Char)) : List (DiffOp × List Char) :=
  l.map (fun p => (p.1, [p.2]))

/-- Merge adjacent runs carrying the same operation. -/
def mergeAdjacent : List (DiffOp × List Char) → List (DiffOp × List Char)
  | [] => []
  | (op, cs) :: rest =>
    match mergeAdjacent rest with
    | (op2, cs2) :: tail =>
      if op = op2 then (op, cs ++ cs2) :: tail else (op, cs) :: (op2, cs2) :: tail
    | [] => [(op, cs)]

/-- Modelled from the spec: the absorption step of
`diff_match_patch.diff_cleanupSemantic`. A trivial equality sandwiched
between two edits and no longer than either neighbour is noise; it is
dissolved into the surrounding edit region by re-emitting its text once as
a deletion and once as an insertion. -/
def absorbEqualities : List (DiffOp × List Char) → List (DiffOp × List Char)
  | (a, as) :: (DiffOp.equal, e) :: (b, bs) :: rest =>
    if a ≠ DiffOp.equal ∧ b ≠ DiffOp.equal ∧ e.length ≤ as.length ∧ e.length ≤ bs.length then
      (a, as) :: (DiffOp.delete, e) :: (DiffOp.insert, e) ::
        absorbEqualities ((b, bs) :: rest)
    else
      (a, as) :: absorbEqualities ((DiffOp.equal, e) :: (b, bs) :: rest)
  | x :: rest => x :: absorbEqualities rest
  | [] => []
termination_by l => l.length

/-- Modelled from the spec: `diff_match_patch.diff_main`, a
longest-common-subsequence-style semantic diff returning maximal runs. -/
def diff_main (original mejorado : String) : List (DiffOp × List Char) :=
  mergeAdjacent (toRuns (charDiff original.data mejorado.data))

/-- Modelled from the spec: `diff_match_patch.diff_cleanupSemantic`, the
cleanup pass that merges trivial or noisy boundary edits into larger,
more human-readable chunks. -/
def diff_cleanupSemantic (diffs : List (DiffOp × List Char)) :
    List (DiffOp × List Char) :=
  mergeAdjacent (absorbEqualities diffs)

/-- Embedding of `calcular_diferencia`: run the diff, clean it up
semantically, and return the entry list. -/
def calcular_diferencia (original mejorado : String) : List DiffEntry :=
  (diff_cleanupSemantic (diff_main original mejorado)).map
    (fun p => DiffEntry.mk p.1 (String.mk p.2))

/-- Concatenation of the text of all entries whose operation is not
`delete` (this should rebuild the improved text). -/
def textNoDelete : List DiffEntry → String
  | [] => ""
  | e :: rest =>
    if e.op = DiffOp.delete then textNoDelete rest else e.text ++ textNoDelete rest

/-- Concatenation of the text of all entries whose operation is not
`insert` (this should rebuild the original text). -/
def textNoInsert : List DiffEntry → String
  | [] => ""
  | e :: rest =>
    if e.op = DiffOp.insert then textNoInsert rest else e.text ++ textNoInsert rest

/-- Characters of the improved stream of a per-character diff. -/
def charNew : List (DiffOp × Char) → List Char
  | [] => []
  | (op, c) :: rest => if op = DiffOp.delete then charNew rest else c :: charNew rest

/-- Characters of the original stream of a per-character diff. -/
def charOld : List (DiffOp × Char) → List Char
  | [] => []
  | (op, c) :: rest => if op = DiffOp.insert then charOld rest else c :: charOld rest

/-- Characters of the improved stream of a run diff. -/
def newOf : List (DiffOp × List Char) → List Char
  | [] => []
  | (op, cs) :: rest => if op = DiffOp.delete then newOf rest else cs ++ newOf rest

/-- Characters of the original stream of a run diff. -/
def oldOf : List (DiffOp × List Char) → List Char
  | [] => []
  | (op, cs) :: rest => if op = DiffOp.insert then oldOf rest else cs ++ oldOf rest

/-! ### Reconstruction lemmas for the Differ -/

theorem charNew_charDiff (o i : List Char) : charNew (charDiff o i) = i := by
  induction o, i using charDiff.induct with
  | case1 => simp [charDiff, charNew]
  | case2 y ys ih => simp [charDiff, charNew, ih]
  | case3 x xs ih => simp [charDiff, charNew, ih]
  | case4 xs y ys ih => simp [charDiff, charNew, ih]
  | case5 x xs y ys hxy hle ih =>
    simp [charDiff, hxy, hle, charNew, ih]
  | case6 x xs y ys hxy hle ih =>
    simp [charDiff, hxy, hle, charNew, ih]

theorem charOld_charDiff (o i : List Char) : charOld (charDiff o i) = o := by
  induction o, i using charDiff.induct with
  | case1 => simp [charDiff, charOld]
  | case2 y ys ih => simp [charDiff, charOld, ih]
  | case3 x xs ih => simp [charDiff, charOld, ih]
  | case4 xs y ys ih => simp [charDiff, charOld, ih]
  | case5 x xs y ys hxy hle ih =>
    simp [charDiff, hxy, hle, charOld, ih]
  | case6 x xs y ys hxy hle ih =>
    simp [charDiff, hxy, hle, charOld, ih]

theorem newOf_toRuns (l : List (DiffOp × Char)) : newOf (toRuns l) = charNew l := by
  induction l with
  | nil => rfl
  | cons p rest ih =>
    obtain ⟨op, c⟩ := p
    by_cases h : op = DiffOp.delete <;> simp [toRuns, newOf, charNew, h, ih] at *

theorem oldOf_toRuns (l : List (DiffOp × Char)) : oldOf (toRuns l) = charOld l := by
  induction l with
  | nil => rfl
  | cons p rest ih =>
    obtain ⟨op, c⟩ := p
    by_cases h : op = DiffOp.insert <;> simp [toRuns, oldOf, charOld, h, ih] at *

theorem newOf_mergeAdjacent (l : List (DiffOp × List Char)) :
    newOf (mergeAdjacent l) = newOf l := by
  induction l with
  | nil => rfl
  | cons p rest ih =>
    obtain ⟨op, cs⟩ := p
    cases hm : mergeAdjacent rest with
    | nil =>
      rw [hm] at ih
      have hmm : mergeAdjacent ((op, cs) :: rest) = [(op, cs)] := by
        rw [mergeAdjacent, hm]
      rw [hmm]
      by_cases h : op = DiffOp.delete <;> simp [newOf, h, ← ih]
    | cons q tail =>
      obtain ⟨op2, cs2⟩ := q
      rw [hm] at ih
      by_cases h : op = op2
      · subst h
        have hmm : mergeAdjacent ((op, cs) :: rest) = (op, cs ++ cs2) :: tail := by
          rw [mergeAdjacent, hm]
          simp
        rw [hmm]
        simp only [newOf] at ih ⊢
        by_cases hd : op = DiffOp.delete
        · simp only [if_pos hd] at ih ⊢
          exact ih
        · simp only [if_neg hd] at ih ⊢
          rw [← ih, List.append_assoc]
      · have hmm : mergeAdjacent ((op, cs) :: rest) = (op, cs) :: (op2, cs2) :: tail := by
          rw [mergeAdjacent, hm]
          simp [h]
        rw [hmm]
        simp only [newOf] at ih ⊢
        rw [ih]

theorem oldOf_mergeAdjacent (l : List (DiffOp × List Char)) :
    oldOf (mergeAdjacent l) = oldOf l := by
  induction l with
  | nil => rfl
  | cons p rest ih =>
    obtain ⟨op, cs⟩ := p
    cases hm : mergeAdjacent rest with
    | nil =>
      rw [hm] at ih
      have hmm : mergeAdjacent ((op, cs) :: rest) = [(op, cs)] := by
        rw [mergeAdjacent, hm]
      rw [hmm]
      by_cases h : op = DiffOp.insert <;> simp [oldOf, h, ← ih]
    | cons q tail =>
      obtain ⟨op2, cs2⟩ := q
      rw [hm] at ih
      by_cases h : op = op2
      · subst h
        have hmm : mergeAdjacent ((op, cs) :: rest) = (op, cs ++ cs2) :: tail := by
          rw [mergeAdjacent, hm]
          simp
        rw [hmm]
        simp only [oldOf] at ih ⊢
        by_cases hd : op = DiffOp.insert
        · simp only [if_pos hd] at ih ⊢
          exact ih
        · simp only [if_neg hd] at ih ⊢
          rw [← ih, List.append_assoc]
      · have hmm : mergeAdjacent ((op, cs) :: rest) = (op, cs) :: (op2, cs2) :: tail := by
          rw [mergeAdjacent, hm]
          simp [h]
        rw [hmm]
        simp only [oldOf] at ih ⊢
        rw [ih]

theorem newOf_absorbEqualities (l : List (DiffOp × List Char)) :
    newOf (absorbEqualities l) = newOf l := by
  induction l using absorbEqualities.induct with
  | case1 a as e b bs rest hguard ih =>
    rw [absorbEqualities, if_pos hguard]
    simp only [newOf] at ih ⊢
    rw [ih]
    by_cases hd : a = DiffOp.delete <;> simp [hd]
  | case2 a as e b bs rest hguard ih =>
    rw [absorbEqualities, if_neg hguard]
    simp only [newOf] at ih ⊢
    rw [ih]
  | case3 x rest hno ih =>
    obtain ⟨op, cs⟩ := x
    rw [absorbEqualities.eq_def]
    simp only [newOf] at ih ⊢
    cases rest with
    | nil => simp [ih]
    | cons q tail =>
      obtain ⟨opq, csq⟩ := q
      cases opq with
      | equal =>
        cases tail with
        | nil => simp [newOf, ih]
        | cons r tr =>
          obtain ⟨opr, csr⟩ := r
          exact absurd rfl (hno op cs csq opr csr tr rfl)
      | insert => simp [newOf, ih]
      | delete => simp [newOf, ih]
  | case4 => simp [absorbEqualities]

theorem oldOf_absorbEqualities (l : List (DiffOp × List Char)) :
    oldOf (absorbEqualities l) = oldOf l := by
  induction l using absorbEqualities.induct with
  | case1 a as e b bs rest hguard ih =>
    rw [absorbEqualities, if_pos hguard]
    simp only [oldOf] at ih ⊢
    rw [ih]
    by_cases hd : a = DiffOp.insert <;> simp [hd]
  | case2 a as e b bs rest hguard ih =>
    rw [absorbEqualities, if_neg hguard]
    simp only [oldOf] at ih ⊢
    rw [ih]
  | case3 x rest hno ih =>
    obtain ⟨op, cs⟩ := x
    rw [absorbEqualities.eq_def]
    simp only [oldOf] at ih ⊢
    cases rest with
    | nil => simp [ih]
    | cons q tail =>
      obtain ⟨opq, csq⟩ := q
      cases opq with
      | equal =>
        cases tail with
        | nil => simp [oldOf, ih]
        | cons r tr =>
          obtain ⟨opr, csr⟩ := r
          exact absurd rfl (hno op cs csq opr csr tr rfl)
      | insert => simp [oldOf, ih]
      | delete => simp [oldOf, ih]
  | case4 => simp [absorbEqualities]

theorem textNoDelete_map (l : List (DiffOp × List Char)) :
    textNoDelete (l.map (fun p => DiffEntry.mk p.1 (String.mk p.2))) =
      String.mk (newOf l) := by
  induction l with
  | nil => rfl
  | cons p rest ih =>
    obtain ⟨op, cs⟩ := p
    by_cases h : op = DiffOp.delete
    · simp [textNoDelete, newOf, h, ih]
    · simp only [List.map_cons, textNoDelete, newOf]
      rw [if_neg h, if_neg h, ih]
      rfl

theorem textNoInsert_map (l : List (DiffOp × List Char)) :
    textNoInsert (l.map (fun p => DiffEntry.mk p.1 (String.mk p.2))) =
      String.mk (oldOf l) := by
  induction l with
  | nil => rfl
  | cons p rest ih =>
    obtain ⟨op, cs⟩ := p
    by_cases h : op = DiffOp.insert
    · simp [textNoInsert, oldOf, h, ih]
    · simp only [List.map_cons, textNoInsert, oldOf]
      rw [if_neg h, if_neg h, ih]
      rfl

/-- C7: diff reconstruction law: in the entry sequence produced by
`calcular_diferencia` on `(original, mejorado)`, concatenating the text of
all entries whose operation is not `delete` yields exactly the improved
text, and concatenating the text of all entries whose operation is not
`insert` yields exactly the original text. -/
theorem diff_reconstruction (original mejorado : String) :
    textNoDelete (calcular_diferencia original mejorado) = mejorado ∧
    textNoInsert (calcular_diferencia original mejorado) = original := by
  constructor
  · rw [calcular_diferencia, textNoDelete_map, diff_cleanupSemantic,
      newOf_mergeAdjacent, newOf_absorbEqualities, diff_main, newOf_mergeAdjacent,
      newOf_toRuns, charNew_charDiff]
  · rw [calcular_diferencia, textNoInsert_map, diff_cleanupSemantic,
      oldOf_mergeAdjacent, oldOf_absorbEqualities, diff_main, oldOf_mergeAdjacent,
      oldOf_toRuns, charOld_charDiff]

/-! ### Lemmas about the Improvement Engine -/

theorem mejorarAux_eq_foldRoundTrips (api : Nat → String → Option (List String))
    (i n : Nat) (codigo : String) :
    mejorarAux api i n codigo = foldRoundTrips api i n codigo := by
  induction n generalizing i codigo with
  | zero => rfl
  | succ n ih =>
    simp only [mejorarAux, foldRoundTrips, roundTrip]
    cases api i (promptFor codigo) with
    | none => rfl
    | some cs =>
      cases cs with
      | nil => rfl
      | cons c rest => simpa using ih (i + 1) (strip c)

theorem foldRoundTrips_add (api : Nat → String → Option (List String))
    (i k m : Nat) (codigo : String) :
    foldRoundTrips api i (k + m) codigo =
      (foldRoundTrips api i k codigo).bind (foldRoundTrips api (i + k) m) := by
  induction k generalizing i codigo with
  | zero => simp [foldRoundTrips]
  | succ k ih =>
    have hsum : k + 1 + m = (k + m) + 1 := by omega
    rw [hsum]
    simp only [foldRoundTrips]
    cases h : roundTrip api i codigo with
    | none => simp
    | some c2 =>
      simp only [Option.bind_some, Option.some_bind]
      rw [ih (i + 1) c2]
      have : i + 1 + k = i + (k + 1) := by omega
      rw [this]

theorem mejorar_none_of_roundTrip_fail (api : Nat → String → Option (List String))
    (k n : Nat) (codigo ck : String)
    (hk : k < n) (hrun : foldRoundTrips api 0 k codigo = some ck)
    (hfail : roundTrip api k ck = none) :
    mejorar_codigo api codigo n = none := by
  have hn : n = k + (n - k - 1 + 1) := by omega
  rw [mejorar_codigo, mejorarAux_eq_foldRoundTrips, hn,
    foldRoundTrips_add api 0 k (n - k - 1 + 1) codigo, hrun]
  simp only [Option.some_bind, Nat.zero_add, foldRoundTrips, hfail, Option.none_bind]

/-! ### Concrete environments used as witnesses -/

/-- Completion oracle that always fails (e.g. missing credential). -/
def apiDown : Nat → String → Option (List String) := fun _ _ => none

/-- Completion oracle whose first call succeeds with candidate `"b"` and whose
second call raises. -/
def apiOnce : Nat → String → Option (List String) :=
  fun i _ => if i = 0 then some ["b"] else none

/-- Completion oracle that always answers with the single candidate `"b"`. -/
def apiB : Nat → String → Option (List String) := fun _ _ => some ["b"]

/-- Completion oracle whose candidates strip to the empty string. -/
def apiBlank : Nat → String → Option (List String) := fun _ _ => some ["  "]

/-- Test oracle: pytest passes exactly when `codigo.py` contains `"a"`. -/
def pytestOnlyA : String → Option CommandResult :=
  fun s => if s == "a" then some (CommandResult.mk 0 "") else some (CommandResult.mk 1 "")

/-- Test oracle: pytest always passes. -/
def pytestPass : String → Option CommandResult := fun _ => some (CommandResult.mk 0 "")

/-- Test oracle: pytest always fails. -/
def pytestFail : String → Option CommandResult := fun _ => some (CommandResult.mk 1 "")

/-- Run in which the engine fails on its first call. -/
def envNull : Env := ⟨some "a", pytestPass, apiDown, none, none, true, true, true, true⟩

/-- Run in which the original code already fails its tests. -/
def envBadOriginal : Env := ⟨some "a", pytestFail, apiB, none, none, true, true, true, true⟩

/-- Run in which the engine yields the empty string. -/
def envBlank : Env := ⟨some "a", pytestPass, apiBlank, none, none, true, true, true, true⟩

/-! ### Claim theorems: the Improvement Engine -/

/-- C3: `mejorar_codigo` on code text and iteration count `n` is exactly the
fold of `n` sequential round-trips: each round-trip embeds the current code
text in the prompt, takes exactly the first returned candidate, strips
leading and trailing whitespace, and feeds the result to the next
round-trip; the value after the last round-trip is returned. -/
theorem mejorar_codigo_is_fold (api : Nat → String → Option (List String))
    (codigo : String) (n : Nat) :
    mejorar_codigo api codigo n = foldRoundTrips api 0 n codigo :=
  mejorarAux_eq_foldRoundTrips api 0 n codigo

/-- C4: if any round-trip of the engine fails, the whole loop yields `none`
rather than a partially improved text; and whenever the original code passes
its tests but the engine yields `none`, the run exits with code 1 and
`codigo.py` still holds the original text. -/
theorem engine_abort_is_fatal_not_salvaged :
    (∀ (api : Nat → String → Option (List String)) (k n : Nat) (codigo ck : String),
      k < n → foldRoundTrips api 0 k codigo = some ck → roundTrip api k ck = none →
      mejorar_codigo api codigo n = none) ∧
    (∀ (env : Env) (O : String), env.load = some O →
      ejecutar_pruebas env.pytest O = true →
      mejorar_codigo env.api O iteraciones = none →
      (main env).exitCode = 1 ∧ (main env).canonical = some O ∧ (main env).temp = none) := by
  constructor
  · exact fun api k n codigo ck hk hrun hfail =>
      mejorar_none_of_roundTrip_fail api k n codigo ck hk hrun hfail
  · intro env O hload hO heng
    simp [main, hload, hO, heng]

/-- C4 witness: the second call of `apiOnce` fails, so two requested
iterations yield `none`; and the run `envNull` (engine down, original tests
passing) exits 1 with `codigo.py` untouched. -/
theorem engine_abort_is_fatal_not_salvaged_witness :
    mejorar_codigo apiOnce "a" 2 = none ∧
    ((main envNull).exitCode = 1 ∧ (main envNull).canonical = some "a" ∧
      (main envNull).temp = none) :=
  ⟨engine_abort_is_fatal_not_salvaged.1 apiOnce 1 2 "a" "b" (by decide) (by decide)
      (by decide),
    engine_abort_is_fatal_not_salvaged.2 envNull "a" rfl (by decide) (by decide)⟩

/-! ### Claim theorems: the driver -/

/-- C5: when the original code fails its own tests, the run exits with code 1,
nothing is written (`codigo.py` keeps the original text, no temp file exists),
and the Improvement Engine is never invoked: the outcome does not depend on
the completion oracle at all. -/
theorem failing_original_tests_abort (env : Env) (O : String)
    (hload : env.load = some O) (hO : ejecutar_pruebas env.pytest O = false) :
    (main env).exitCode = 1 ∧ (main env).canonical = some O ∧ (main env).temp = none ∧
      ∀ api2 : Nat → String → Option (List String),
        main ⟨env.load, env.pytest, api2, env.pylint, env.flake8, env.tempWriteOk,
          env.moveOk, env.restoreWriteOk, env.restaWriteOk⟩ = main env := by
  refine ⟨?_, ?_, ?_, ?_⟩
  · simp [main, hload, hO]
  · simp [main, hload, hO]
  · simp [main, hload, hO]
  · intro api2
    simp [main, hload, hO]

/-- C5 witness: the run `envBadOriginal` exits 1 before any write, whatever
the completion oracle would have answered. -/
theorem failing_original_tests_abort_witness :
    (main envBadOriginal).exitCode = 1 ∧ (main envBadOriginal).canonical = some "a" ∧
      (main envBadOriginal).temp = none ∧
      ∀ api2 : Nat → String → Option (List String),
        main ⟨envBadOriginal.load, envBadOriginal.pytest, api2, envBadOriginal.pylint,
          envBadOriginal.flake8, envBadOriginal.tempWriteOk, envBadOriginal.moveOk,
          envBadOriginal.restoreWriteOk, envBadOriginal.restaWriteOk⟩ = main envBadOriginal :=
  failing_original_tests_abort envBadOriginal "a" rfl (by decide)

/-- C10: an engine result that is the empty string is handled exactly like a
`None` result, because `main` tests the result for falsiness: the run exits
with code 1 and `codigo.py` keeps the original text. -/
theorem empty_improvement_treated_as_null (env : Env) (O : String)
    (hload : env.load = some O) (hO : ejecutar_pruebas env.pytest O = true)
    (heng : mejorar_codigo env.api O iteraciones = some "") :
    (main env).exitCode = 1 ∧ (main env).canonical = some O ∧ (main env).temp = none := by
  simp [main, hload, hO, heng]

/-- C10 witness: in `envBlank` every candidate strips to the empty string,
the engine returns `some ""`, and the run aborts like a null result. -/
theorem empty_improvement_treated_as_null_witness :
    (main envBlank).exitCode = 1 ∧ (main envBlank).canonical = some "a" ∧
      (main envBlank).temp = none :=
  empty_improvement_treated_as_null envBlank "a" rfl (by decide) (by decide)

/-- Run in which the improved code `"b"` fails the tests and the revert
write succeeds. -/
def envRevert : Env := ⟨some "a", pytestOnlyA, apiB, none, none, true, true, true, true⟩

/-- Run in which the improved code passes the tests and is kept. -/
def envKeep : Env := ⟨some "a", pytestPass, apiB, none, none, true, true, true, true⟩

/-- Run in which the improved code fails the tests and the revert write to
`codigo.py` itself fails. -/
def envRestoreFail : Env := ⟨some "a", pytestOnlyA, apiB, none, none, true, true, false, true⟩

/-- Run in which `shutil.move` of the staged file onto `codigo.py` fails. -/
def envMoveFail : Env := ⟨some "a", pytestPass, apiB, none, none, true, false, true, true⟩

/-- C1: when the post-swap test run on the improved text fails, the run ends
with `codigo.py` holding exactly the original text again (swap then revert
is a no-op on the canonical content) and exits with status 0, not a fatal
status. -/
theorem revert_restores_original (env : Env) (O I : String)
    (hload : env.load = some O) (hO : ejecutar_pruebas env.pytest O = true)
    (heng : mejorar_codigo env.api O iteraciones = some I) (hne : I ≠ "")
    (htmp : env.tempWriteOk = true) (hmv : env.moveOk = true)
    (hI : ejecutar_pruebas env.pytest I = false) (hrw : env.restoreWriteOk = true) :
    (main env).canonical = some O ∧ (main env).exitCode = 0 := by
  simp [main, hload, hO, heng, hne, htmp, hmv, hI, hrw]

/-- C1 witness: in `envRevert` the engine rewrites `"a"` to `"b"`, the tests
reject `"b"`, and the run ends with `codigo.py` back at `"a"` and exit 0. -/
theorem revert_restores_original_witness :
    (main envRevert).canonical = some "a" ∧ (main envRevert).exitCode = 0 :=
  revert_restores_original envRevert "a" "b" rfl (by decide) (by decide) (by decide)
    rfl rfl (by decide) rfl

/-- C2: when the post-swap test run on the improved text passes, the run ends
with `codigo.py` holding exactly the improved text and exits with status 0. -/
theorem improved_text_kept (env : Env) (O I : String)
    (hload : env.load = some O) (hO : ejecutar_pruebas env.pytest O = true)
    (heng : mejorar_codigo env.api O iteraciones = some I) (hne : I ≠ "")
    (htmp : env.tempWriteOk = true) (hmv : env.moveOk = true)
    (hI : ejecutar_pruebas env.pytest I = true) :
    (main env).canonical = some I ∧ (main env).exitCode = 0 := by
  simp [main, hload, hO, heng, hne, htmp, hmv, hI]

/-- C2 witness: in `envKeep` the engine rewrites `"a"` to `"b"`, the tests
accept `"b"`, and the run ends with `codigo.py` holding `"b"` and exit 0. -/
theorem improved_text_kept_witness :
    (main envKeep).canonical = some "b" ∧ (main envKeep).exitCode = 0 :=
  improved_text_kept envKeep "a" "b" rfl (by decide) (by decide) (by decide)
    rfl rfl (by decide)

/-- C6 counterexample: a run in which the post-swap tests fail and the
restoring write of the original content to `codigo.py` itself fails ends
with exit code 0 (the failure is caught inside `crear_archivo` and logged),
not with the non-zero exit the claim states; the improved text stays at
`codigo.py`. -/
theorem restore_failure_fatal_cex :
    ejecutar_pruebas envRestoreFail.pytest "a" = true ∧
    mejorar_codigo envRestoreFail.api "a" iteraciones = some "b" ∧
    ejecutar_pruebas envRestoreFail.pytest "b" = false ∧
    envRestoreFail.restoreWriteOk = false ∧
    (main envRestoreFail).exitCode = 0 ∧
    (main envRestoreFail).canonical = some "b" := by
  decide

/-- C6 amended: the fatal file operation at the swap stage is the move of
the staged file onto `codigo.py` (`shutil.move`), which exits with code 1;
a failure while restoring the original content after a failed post-swap
test run is caught and logged like every other `crear_archivo` write
failure, and the run still exits with code 0 (leaving the improved text in
place). -/
theorem move_failure_fatal_restore_failure_logged :
    (∀ (env : Env) (O I : String), env.load = some O →
      ejecutar_pruebas env.pytest O = true →
      mejorar_codigo env.api O iteraciones = some I → I ≠ "" →
      env.tempWriteOk = true → env.moveOk = false →
      (main env).exitCode = 1 ∧ (main env).canonical = some O) ∧
    (∀ (env : Env) (O I : String), env.load = some O →
      ejecutar_pruebas env.pytest O = true →
      mejorar_codigo env.api O iteraciones = some I → I ≠ "" →
      env.tempWriteOk = true → env.moveOk = true →
      ejecutar_pruebas env.pytest I = false → env.restoreWriteOk = false →
      (main env).exitCode = 0 ∧ (main env).canonical = some I) := by
  constructor
  · intro env O I hload hO heng hne htmp hmv
    simp [main, hload, hO, heng, hne, htmp, hmv]
  · intro env O I hload hO heng hne htmp hmv hI hrw
    simp [main, hload, hO, heng, hne, htmp, hmv, hI, hrw]

/-- C6 amended witness: in `envMoveFail` the move fails and the run exits 1
keeping the original; in `envRestoreFail` the restore write fails and the
run exits 0 with the improved text left at `codigo.py`. -/
theorem move_failure_fatal_restore_failure_logged_witness :
    ((main envMoveFail).exitCode = 1 ∧ (main envMoveFail).canonical = some "a") ∧
    ((main envRestoreFail).exitCode = 0 ∧ (main envRestoreFail).canonical = some "b") :=
  ⟨move_failure_fatal_restore_failure_logged.1 envMoveFail "a" "b" rfl (by decide)
      (by decide) (by decide) rfl rfl,
    move_failure_fatal_restore_failure_logged.2 envRestoreFail "a" "b" rfl (by decide)
      (by decide) (by decide) rfl rfl (by decide) rfl⟩

/-- C9: every run that reaches the DONE state (exit code 0) and whose write
of the example file succeeds leaves the same fixed static content at
`nuevas_funciones/resta.py`, whether the improvement was kept or reverted;
repeated runs therefore always produce this same content there. -/
theorem example_file_content_fixed (env : Env)
    (hdone : (main env).exitCode = 0) (hw : env.restaWriteOk = true) :
    (main env).resta = some nuevo_codigo := by
  cases hload : env.load with
  | none => simp [main, hload] at hdone
  | some O =>
    cases hO : ejecutar_pruebas env.pytest O with
    | false => simp [main, hload, hO] at hdone
    | true =>
      cases heng : mejorar_codigo env.api O iteraciones with
      | none => simp [main, hload, hO, heng] at hdone
      | some I =>
        by_cases hne : I = ""
        · simp [main, hload, hO, heng, hne] at hdone
        · cases htmp : env.tempWriteOk with
          | false => simp [main, hload, hO, heng, hne, htmp] at hdone
          | true =>
            cases hmv : env.moveOk with
            | false => simp [main, hload, hO, heng, hne, htmp, hmv] at hdone
            | true =>
              cases hI : ejecutar_pruebas env.pytest I with
              | false => simp [main, hload, hO, heng, hne, htmp, hmv, hI, hw]
              | true => simp [main, hload, hO, heng, hne, htmp, hmv, hI, hw]

/-- C9 witness: the kept-improvement run `envKeep` ends at DONE and holds the
static `resta` content at the example path. -/
theorem example_file_content_fixed_witness :
    (main envKeep).resta = some nuevo_codigo :=
  example_file_content_fixed envKeep (by decide) rfl

/-- Replace only the two linter oracle results of an environment. -/
def setLinters (env : Env) (p f : Option CommandResult) : Env :=
  ⟨env.load, env.pytest, env.api, p, f, env.tempWriteOk, env.moveOk,
    env.restoreWriteOk, env.restaWriteOk⟩

/-- C8: the linter results never influence the swap decision, the final
content of `codigo.py`, the staged or example files, or the exit code: two
runs identical except for the pylint and flake8 results agree on everything
but the log. -/
theorem linters_noninterference (env : Env) (p1 f1 p2 f2 : Option CommandResult) :
    (main (setLinters env p1 f1)).canonical = (main (setLinters env p2 f2)).canonical ∧
    (main (setLinters env p1 f1)).temp = (main (setLinters env p2 f2)).temp ∧
    (main (setLinters env p1 f1)).resta = (main (setLinters env p2 f2)).resta ∧
    (main (setLinters env p1 f1)).exitCode = (main (setLinters env p2 f2)).exitCode := by
  cases hload : env.load with
  | none => simp [main, setLinters, hload]
  | some O =>
    cases hO : ejecutar_pruebas env.pytest O with
    | false => simp [main, setLinters, hload, hO]
    | true =>
      cases heng : mejorar_codigo env.api O iteraciones with
      | none => simp [main, setLinters, hload, hO, heng]
      | some I =>
        by_cases hne : I = ""
        · simp [main, setLinters, hload, hO, heng, hne]
        · cases htmp : env.tempWriteOk with
          | false => simp [main, setLinters, hload, hO, heng, hne, htmp]
          | true =>
            cases hmv : env.moveOk with
            | false => simp [main, setLinters, hload, hO, heng, hne, htmp, hmv]
            | true =>
              cases hI : ejecutar_pruebas env.pytest I with
              | false => simp [main, setLinters, hload, hO, heng, hne, htmp, hmv, hI]
              | true => simp [main, setLinters, hload, hO, heng, hne, htmp, hmv, hI]

end MejoraCodigo
